import Mathlib

/-!
Verification of the Post model of `book/8-end/api/server/models/Post.ts`.

The file embeds, as executable Lean definitions, the data model and the
operations of the `PostClass` mongoose model: `getList`, `add`, `edit`,
`delete` and the shared `checkPermission` sub-routine, together with the
custom markdown link renderer installed by `markdownToHtml`.

Modelling decisions, each tied to a line of the source:
* The document store is a list of `Post` records; `findById` is
  `List.find?` on the `id` field, `findOneAndUpdate`/`deleteOne` touch the
  first record whose `id` matches (Mongo ids are unique, so "first" is
  exact).
* Errors are an inductive type, one constructor per distinct `throw` site:
  `Error('Bad data')` becomes `badData`, `Error('Permission denied')`
  becomes `permissionDenied`, `Error('Discussion not found')` becomes
  `discussionNotFound`, and `Error('Team not found')` becomes
  `teamNotFound` (the source raises this one message both when the team is
  absent and when `userId` is not in `team.memberIds`, line
  `if (!team || team.memberIds.indexOf(userId) === -1)`).
* In `edit`/`delete` the source dereferences the fetched post with no
  null guard (`post.discussionId` on line 164/186), so a missing post is a
  TypeError crash; the spec directs to treat that crash as a `NotFound`
  failure, which the constructor `postNotFound` models.
* The external `marked` pipeline is an opaque pure function, so the CRUD
  operations take the rendering function `render` as an explicit
  parameter; the repository-owned part of `markdownToHtml`, the
  `renderer.link` override, is embedded literally as `rendererLink`.
* `new Date()` becomes an explicit `now : Nat` parameter and the id Mongo
  assigns at `create` becomes an explicit `newId` parameter.
-/

deriving instance DecidableEq for Except

namespace SaasPost

/-- The distinct failure outcomes of the Post model, one per `throw` site
(plus `postNotFound` for the unguarded null dereference in `edit`/`delete`,
which the spec says to treat as `NotFound`). -/
inductive PostError where
  /-- `throw new Error('Bad data')`: the spec's `InvalidInput`. -/
  | badData
  /-- `throw new Error('Permission denied')`: the spec's `PermissionDenied`. -/
  | permissionDenied
  /-- `throw new Error('Discussion not found')`: a `NotFound` failure. -/
  | discussionNotFound
  /-- `throw new Error('Team not found')`: a `NotFound` failure, raised both
  when the team record is absent and when `userId` is not in
  `team.memberIds`. -/
  | teamNotFound
  /-- The TypeError crash on `post.discussionId` when `findById` returned
  null; treated as a `NotFound` failure, following the spec. -/
  | postNotFound
  deriving Repr, DecidableEq

/-- A Post document (mongoSchema plus the `_id` Mongo assigns). -/
structure Post where
  id : String
  createdUserId : String
  discussionId : String
  content : String
  htmlContent : String
  isEdited : Bool
  createdAt : Nat
  lastUpdatedAt : Option Nat
  deriving Repr, DecidableEq

/-- The projection of a Discussion document read by `checkPermission`. -/
structure Discussion where
  id : String
  teamId : String
  memberIds : List String
  deriving Repr, DecidableEq

/-- The projection of a Team document read by `checkPermission`. -/
structure Team where
  id : String
  memberIds : List String
  deriving Repr, DecidableEq

/-- The read-only external collections consulted by `checkPermission`. -/
structure Env where
  discussions : List Discussion
  teams : List Team
  deriving Repr, DecidableEq

/-- The Post collection. -/
abbrev Store := List Post

/-! ### String helpers for the link renderer

JavaScript `String.prototype.startsWith` and single-occurrence
`String.prototype.replace(string, string)` over the character list of a
`String`. -/

/-- `isPrefixOfL pat s` is true when `pat` is an initial segment of `s`. -/
def isPrefixOfL : List Char → List Char → Bool
  | [], _ => true
  | _ :: _, [] => false
  | p :: ps, c :: cs => p == c && isPrefixOfL ps cs

/-- JavaScript `s.startsWith(pat)`. -/
def strStartsWith (s pat : String) : Bool :=
  isPrefixOfL pat.data s.data

/-- Replace the first occurrence of `pat` (scanning left to right) by `rep`. -/
def replaceFirstL (pat rep : List Char) : List Char → List Char
  | [] => []
  | c :: cs =>
    if isPrefixOfL pat (c :: cs) then rep ++ (c :: cs).drop pat.length
    else c :: replaceFirstL pat rep cs

/-- JavaScript `s.replace(pat, rep)` with a string `pat`: first occurrence
only. -/
def replaceFirst (s pat rep : String) : String :=
  ⟨replaceFirstL pat.data rep.data s.data⟩

/-! ### The custom link renderer of `markdownToHtml` -/

/-- The inline-code mention marker the renderer looks for:
`text.startsWith('<code>@#')`. -/
def mentionMarker : String := "<code>@#"

/-- The replacement the renderer substitutes for the marker:
`text.replace('<code>@#', '<code>@')`. -/
def mentionReplacement : String := "<code>@"

/-- `const t = title ? ` title="${title}"` : '';` — a missing or empty
(falsy) title contributes nothing. -/
def titleAttr : Option String → String
  | some ti => if ti = "" then "" else " title=\"" ++ ti ++ "\""
  | none => ""

/-- The anchor template up to the interpolated `href`. -/
def anchorOpen : String := "\n      <a target=\"_blank\" href=\""

/-- The anchor template between the `href` and the title attribute. -/
def anchorRel : String := "\" rel=\"noopener noreferrer\""

/-- The anchor template between the attributes and the link text. -/
def anchorTextOpen : String := ">\n        "

/-- The icon markup and closing tag appended after the link text. -/
def anchorIconClose : String :=
  "\n        <i class=\"material-icons\" style=\"font-size: 16px; vertical-align: baseline\">\n          launch\n        </i>\n      </a>\n    "

/-- The trailing space appended after a rewritten mention. -/
def oneSpace : String := " "

/-- The `renderer.link` override of `markdownToHtml` (Post.ts lines 43-58):
a link whose rendered text starts with the `<code>@#` marker is rewritten
by replacing the first occurrence of the marker with `<code>@` and
appending a space; any other link becomes an anchor that opens in a new
tab with `rel="noopener noreferrer"` and an external-link icon appended
after the text. -/
def rendererLink (href : String) (title : Option String) (text : String) : String :=
  if strStartsWith text mentionMarker then
    replaceFirst text mentionMarker mentionReplacement ++ oneSpace
  else
    anchorOpen ++ href ++ anchorRel ++ titleAttr title ++ anchorTextOpen ++ text ++
      anchorIconClose

/-! ### checkPermission -/

/-- `post && post.createdUserId !== userId` of line 196. -/
def ownershipViolated (userId : String) : Option Post → Bool
  | some p => p.createdUserId != userId
  | none => false

/-- `checkPermission` (Post.ts lines 191-221). Ordering is exactly the
source's: the bad-data guard, then the ownership check on the supplied
`post` (before any store lookup), then the Discussion lookup and
membership check, then the Team lookup and membership check — where both
a missing team and a failed team-membership test raise `teamNotFound`. -/
def checkPermission (env : Env) (userId discussionId : String)
    (post : Option Post) : Except PostError (Team × Discussion) :=
  if userId = "" ∨ discussionId = "" then .error .badData
  else if ownershipViolated userId post then .error .permissionDenied
  else
    match env.discussions.find? (fun d => d.id == discussionId) with
    | none => .error .discussionNotFound
    | some discussion =>
      if userId ∈ discussion.memberIds then
        match env.teams.find? (fun t => t.id == discussion.teamId) with
        | none => .error .teamNotFound
        | some team =>
          if userId ∈ team.memberIds then .ok (team, discussion)
          else .error .teamNotFound
      else .error .permissionDenied

/-! ### Store primitives -/

/-- `findOneAndUpdate({ _id: id }, ...)`: replace the first record whose
`id` matches. -/
def updateFirstPost (id : String) (f : Post → Post) : Store → Store
  | [] => []
  | p :: ps => if p.id == id then f p :: ps else p :: updateFirstPost id f ps

/-- `deleteOne({ _id: id })`: remove the first record whose `id` matches. -/
def deleteFirstPost (id : String) : Store → Store
  | [] => []
  | p :: ps => if p.id == id then ps else p :: deleteFirstPost id ps

/-- Ascending `createdAt`, the sort key of `getList`. -/
def byCreatedAt (a b : Post) : Prop := a.createdAt ≤ b.createdAt

instance : DecidableRel byCreatedAt := fun a b => Nat.decLe a.createdAt b.createdAt

instance : IsTotal Post byCreatedAt := ⟨fun a b => Nat.le_total a.createdAt b.createdAt⟩

instance : IsTrans Post byCreatedAt := ⟨fun _ _ _ h h' => Nat.le_trans h h'⟩

/-- `.sort({ createdAt: 1 })`: the matching records in ascending
`createdAt` order. -/
def sortByCreatedAt (l : List Post) : List Post :=
  l.insertionSort byCreatedAt

/-! ### The four public operations -/

namespace PostClass

/-- `getList` (Post.ts lines 129-135): check permission, then return the
posts whose `discussionId` matches, sorted by ascending `createdAt`. -/
def getList (env : Env) (userId discussionId : String) (store : Store) :
    Except PostError (List Post) :=
  match checkPermission env userId discussionId none with
  | .error e => .error e
  | .ok _ =>
    .ok (sortByCreatedAt (store.filter fun p => p.discussionId == discussionId))

/-- `add` (Post.ts lines 137-153): reject empty `content` (`'Bad data'`),
render the markdown, and create the record with `isEdited` defaulted to
false and no `lastUpdatedAt`. No permission check occurs: the function
does not even receive the Discussion/Team environment. -/
def add (render : String → String) (newId : String) (now : Nat)
    (content userId discussionId : String) (store : Store) :
    Except PostError (Post × Store) :=
  if content = "" then .error .badData
  else
    let post : Post :=
      { id := newId, createdUserId := userId, discussionId := discussionId,
        content := content, htmlContent := render content, isEdited := false,
        createdAt := now, lastUpdatedAt := none }
    .ok (post, store ++ [post])

/-- `edit` (Post.ts lines 155-175): reject empty `content` or `id`, fetch
the post (a missing post is the unguarded null dereference, modelled as
`postNotFound`), run `checkPermission` with the fetched post, re-render,
and update `content`, `htmlContent`, `isEdited`, `lastUpdatedAt` on the
stored record, returning the updated document. -/
def edit (render : String → String) (now : Nat) (env : Env)
    (content userId id : String) (store : Store) :
    Except PostError (Post × Store) :=
  if content = "" ∨ id = "" then .error .badData
  else
    match store.find? (fun p => p.id == id) with
    | none => .error .postNotFound
    | some post =>
      match checkPermission env userId post.discussionId (some post) with
      | .error e => .error e
      | .ok _ =>
        let updated : Post :=
          { post with content := content, htmlContent := render content,
                      isEdited := true, lastUpdatedAt := some now }
        .ok (updated, updateFirstPost id (fun _ => updated) store)

/-- `delete` (Post.ts lines 177-189): reject empty `id`, fetch the post
(missing post modelled as `postNotFound`, as in `edit`), run
`checkPermission` with the fetched post, then delete the record by id. -/
def delete (env : Env) (userId id : String) (store : Store) :
    Except PostError Store :=
  if id = "" then .error .badData
  else
    match store.find? (fun p => p.id == id) with
    | none => .error .postNotFound
    | some post =>
      match checkPermission env userId post.discussionId (some post) with
      | .error e => .error e
      | .ok _ => .ok (deleteFirstPost id store)

end PostClass

/-! ### Helper lemmas -/

/-- A successful `find?` splits the list at the first hit. -/
theorem find?_split {α : Type} (p : α → Bool) (l : List α) (a : α)
    (h : l.find? p = some a) :
    ∃ l1 l2, l = l1 ++ a :: l2 ∧ p a = true ∧ ∀ x ∈ l1, p x = false := by
  induction l with
  | nil => simp [List.find?] at h
  | cons b bs ih =>
    by_cases hb : p b
    · rw [List.find?_cons_of_pos _ hb] at h
      obtain rfl : b = a := by injection h
      exact ⟨[], bs, rfl, hb, by simp⟩
    · rw [List.find?_cons_of_neg _ hb] at h
      obtain ⟨l1, l2, rfl, hpa, hall⟩ := ih h
      refine ⟨b :: l1, l2, rfl, hpa, ?_⟩
      intro x hx
      rcases List.mem_cons.mp hx with rfl | hx
      · simpa using hb
      · exact hall x hx

/-- `updateFirstPost` on a list split at the first matching id rewrites
exactly that record. -/
theorem updateFirstPost_append (id : String) (f : Post → Post)
    (l1 l2 : List Post) (post : Post)
    (h1 : ∀ x ∈ l1, (x.id == id) = false) (h2 : (post.id == id) = true) :
    updateFirstPost id f (l1 ++ post :: l2) = l1 ++ f post :: l2 := by
  induction l1 with
  | nil => simp [updateFirstPost, h2]
  | cons b bs ih =>
    have hb : (b.id == id) = false := h1 b (List.mem_cons_self b bs)
    simp [updateFirstPost, hb, ih fun x hx => h1 x (List.mem_cons_of_mem b hx)]

/-- `deleteFirstPost` on a list split at the first matching id removes
exactly that record. -/
theorem deleteFirstPost_append (id : String)
    (l1 l2 : List Post) (post : Post)
    (h1 : ∀ x ∈ l1, (x.id == id) = false) (h2 : (post.id == id) = true) :
    deleteFirstPost id (l1 ++ post :: l2) = l1 ++ l2 := by
  induction l1 with
  | nil => simp [deleteFirstPost, h2]
  | cons b bs ih =>
    have hb : (b.id == id) = false := h1 b (List.mem_cons_self b bs)
    simp [deleteFirstPost, hb, ih fun x hx => h1 x (List.mem_cons_of_mem b hx)]

/-- The ownership check fires before any Discussion or Team lookup:
with valid ids and a post the caller does not own, `checkPermission`
fails with `permissionDenied` whatever the environment holds. -/
theorem checkPermission_owner_mismatch (env : Env) (userId discussionId : String)
    (post : Post) (hu : userId ≠ "") (hd : discussionId ≠ "")
    (hown : post.createdUserId ≠ userId) :
    checkPermission env userId discussionId (some post) =
      .error .permissionDenied := by
  simp [checkPermission, hu, hd, ownershipViolated, bne_iff_ne, hown]

/-- A caller outside `discussion.memberIds` is rejected with
`permissionDenied`. -/
theorem checkPermission_not_discussion_member (env : Env)
    (userId discussionId : String) (post : Option Post)
    (hu : userId ≠ "") (hd : discussionId ≠ "")
    (hown : ownershipViolated userId post = false)
    (discussion : Discussion)
    (hfd : env.discussions.find? (fun d => d.id == discussionId) = some discussion)
    (hmem : userId ∉ discussion.memberIds) :
    checkPermission env userId discussionId post = .error .permissionDenied := by
  simp [checkPermission, hu, hd, hown, hfd, hmem]

/-- A caller inside the discussion but outside `team.memberIds` is
rejected with `teamNotFound` — the message the source raises, not
`permissionDenied`. -/
theorem checkPermission_not_team_member (env : Env)
    (userId discussionId : String) (post : Option Post)
    (hu : userId ≠ "") (hd : discussionId ≠ "")
    (hown : ownershipViolated userId post = false)
    (discussion : Discussion)
    (hfd : env.discussions.find? (fun d => d.id == discussionId) = some discussion)
    (hmem : userId ∈ discussion.memberIds)
    (team : Team)
    (hft : env.teams.find? (fun t => t.id == discussion.teamId) = some team)
    (htm : userId ∉ team.memberIds) :
    checkPermission env userId discussionId post = .error .teamNotFound := by
  simp [checkPermission, hu, hd, hown, hfd, hmem, hft, htm]

/-- `edit` propagates a `checkPermission` failure unchanged. -/
theorem edit_checkPermission_error (render : String → String) (now : Nat)
    (env : Env) (content userId id : String) (store : Store) (post : Post)
    (e : PostError) (hc : content ≠ "") (hi : id ≠ "")
    (hfind : store.find? (fun p => p.id == id) = some post)
    (hcp : checkPermission env userId post.discussionId (some post) = .error e) :
    PostClass.edit render now env content userId id store = .error e := by
  simp [PostClass.edit, hc, hi, hfind, hcp]

/-- `delete` propagates a `checkPermission` failure unchanged. -/
theorem delete_checkPermission_error (env : Env) (userId id : String)
    (store : Store) (post : Post) (e : PostError) (hi : id ≠ "")
    (hfind : store.find? (fun p => p.id == id) = some post)
    (hcp : checkPermission env userId post.discussionId (some post) = .error e) :
    PostClass.delete env userId id store = .error e := by
  simp [PostClass.delete, hi, hfind, hcp]

/-- Characterization of a successful `edit`: the store splits at the first
record whose id matches, and only that record is replaced, by the record
updated exactly in `content`, `htmlContent`, `isEdited`, `lastUpdatedAt`. -/
theorem edit_ok_split (render : String → String) (now : Nat) (env : Env)
    (content userId id : String) (store : Store) (updated : Post)
    (store' : Store)
    (h : PostClass.edit render now env content userId id store =
      .ok (updated, store')) :
    ∃ l1 post l2,
      store = l1 ++ post :: l2 ∧
      (∀ x ∈ l1, (x.id == id) = false) ∧ (post.id == id) = true ∧
      updated = { post with content := content, htmlContent := render content,
                            isEdited := true, lastUpdatedAt := some now } ∧
      store' = l1 ++ updated :: l2 := by
  rw [PostClass.edit] at h
  split at h
  · exact absurd h (by simp)
  · split at h
    · exact absurd h (by simp)
    · rename_i post hfind
      split at h
      · exact absurd h (by simp)
      · simp only [Except.ok.injEq, Prod.mk.injEq] at h
        obtain ⟨h1, h2⟩ := h
        obtain ⟨l1, l2, rfl, hpa, hall⟩ := find?_split _ _ _ hfind
        refine ⟨l1, post, l2, rfl, hall, hpa, h1.symm, ?_⟩
        rw [← h2, updateFirstPost_append id _ l1 l2 post hall hpa, h1]

/-! ### Substring occurrence, and lemmas about the string helpers -/

/-- `containsSubL pat s` is true when `pat` occurs contiguously in `s`. -/
def containsSubL (pat : List Char) : List Char → Bool
  | [] => isPrefixOfL pat []
  | c :: cs => isPrefixOfL pat (c :: cs) || containsSubL pat cs

/-- `containsSub s pat` is true when `pat` occurs contiguously in `s`. -/
def containsSub (s pat : String) : Bool :=
  containsSubL pat.data s.data

/-- The `target="_blank"` attribute the spec requires on external links. -/
def targetBlankAttr : String := "target=\"_blank\""

/-- The `rel="noopener noreferrer"` attribute. -/
def relNoopener : String := "rel=\"noopener noreferrer\""

/-- The marker of the appended external-link icon. -/
def iconLaunch : String := "material-icons"

/-- Every list is a prefix of itself extended on the right. -/
theorem isPrefixOfL_append_self (pat r : List Char) :
    isPrefixOfL pat (pat ++ r) = true := by
  induction pat with
  | nil => rfl
  | cons p ps ih => simp [isPrefixOfL, ih]

/-- Replacing `pat` in `pat ++ r` substitutes at the front. -/
theorem replaceFirstL_append_self (pat rep r : List Char) (h : pat ≠ []) :
    replaceFirstL pat rep (pat ++ r) = rep ++ r := by
  match pat, h with
  | p :: ps, _ =>
    have h1 : isPrefixOfL (p :: ps) (p :: (ps ++ r)) = true := by
      have h2 := isPrefixOfL_append_self (p :: ps) r
      simpa using h2
    rw [List.cons_append, replaceFirstL, if_pos h1]
    simp [List.drop_left]

/-- String-level version of `replaceFirstL_append_self`. -/
theorem replaceFirst_append_self (pat rep r : String) (h : pat.data ≠ []) :
    replaceFirst (pat ++ r) pat rep = rep ++ r := by
  apply String.ext
  show replaceFirstL pat.data rep.data (pat ++ r).data = (rep ++ r).data
  rw [String.data_append, String.data_append]
  exact replaceFirstL_append_self _ _ _ h

/-! ### Concrete fixtures for witnesses and counterexamples -/

/-- The empty string, the falsy `content` value that `add` rejects. -/
def emptyStr : String := ""

/-- A user id: the author of the fixture post. -/
def uAuthor : String := "alice"

/-- A user id distinct from the author. -/
def uOther : String := "bob"

/-- The fixture discussion id. -/
def dId : String := "d1"

/-- A discussion id with no matching discussion record. -/
def dMissing : String := "d9"

/-- The fixture team id. -/
def tId : String := "t1"

/-- The fixture post id. -/
def pId : String := "p1"

/-- A second post id. -/
def pId2 : String := "p2"

/-- A third post id. -/
def pId3 : String := "p3"

/-- Sample markdown contents. -/
def cHello : String := "hello"

/-- A second sample content. -/
def cWorld : String := "world"

/-- A third sample content, for a repeated edit. -/
def cAgain : String := "again"

/-- The rendered link text `marked` hands the renderer for a link whose
text is the inline-code mention `@#alice`. -/
def mentionText : String := "<code>@#alice</code>"

/-- What `rendererLink` actually produces for `mentionText`: the `@#`
marker becomes `@`, but the code-span wrapper stays. -/
def mentionOut : String := "<code>@alice</code> "

/-- The plain mention the claim says is produced. -/
def plainMention : String := "@alice "

/-- A sample href. -/
def hrefX : String := "http://x.com"

/-- A sample ordinary link text. -/
def linkText : String := "link"

/-- The identity rendering function, standing in for the external `marked`
pipeline in concrete runs. -/
def idRender : String → String := fun s => s

/-- The fixture discussion: owned by `tId`, with `uAuthor` as sole member. -/
def dDisc : Discussion := { id := dId, teamId := tId, memberIds := [uAuthor] }

/-- The fixture team with `uAuthor` as member. -/
def tFull : Team := { id := tId, memberIds := [uAuthor] }

/-- The fixture team with an empty member list. -/
def tNoMembers : Team := { id := tId, memberIds := [] }

/-- Environment in which `uAuthor` passes every membership check. -/
def envFull : Env := { discussions := [dDisc], teams := [tFull] }

/-- Environment in which `uAuthor` is in the discussion but not in the
team. -/
def envNoTeamMember : Env := { discussions := [dDisc], teams := [tNoMembers] }

/-- Environment with no discussions and no teams at all. -/
def envEmpty : Env := { discussions := [], teams := [] }

/-- The fixture post, authored by `uAuthor` in discussion `dId`, with
`htmlContent` consistent with `idRender`. -/
def postA : Post :=
  { id := pId, createdUserId := uAuthor, discussionId := dId,
    content := cHello, htmlContent := cHello, isEdited := false,
    createdAt := 0, lastUpdatedAt := none }

/-- A later post by the same author in the same discussion. -/
def postB : Post :=
  { id := pId2, createdUserId := uAuthor, discussionId := dId,
    content := cWorld, htmlContent := cWorld, isEdited := false,
    createdAt := 5, lastUpdatedAt := none }

/-- A post in a different discussion. -/
def postC : Post :=
  { id := pId3, createdUserId := uAuthor, discussionId := dMissing,
    content := cWorld, htmlContent := cWorld, isEdited := false,
    createdAt := 2, lastUpdatedAt := none }

/-- The post a concrete `add` by `uOther` creates (id `pId2`, time 3). -/
def postAdded : Post :=
  { id := pId2, createdUserId := uOther, discussionId := dMissing,
    content := cWorld, htmlContent := cWorld, isEdited := false,
    createdAt := 3, lastUpdatedAt := none }

/-- The fixture post after one edit (content `cWorld`, at time 1). -/
def postAEdited : Post :=
  { id := pId, createdUserId := uAuthor, discussionId := dId,
    content := cWorld, htmlContent := cWorld, isEdited := true,
    createdAt := 0, lastUpdatedAt := some 1 }

/-- The fixture post after a second edit (content `cAgain`, at time 2). -/
def postAEditedTwice : Post :=
  { id := pId, createdUserId := uAuthor, discussionId := dId,
    content := cAgain, htmlContent := cAgain, isEdited := true,
    createdAt := 0, lastUpdatedAt := some 2 }

/-! ### Claim theorems -/

/-- Claim C5: `add` with empty `content` fails with `InvalidInput`
(`'Bad data'`, the `badData` error) and creates no record: the operation
returns an error, so no store is produced and the store passed in is left
as it was. -/
theorem add_empty_content_invalidInput (render : String → String)
    (newId : String) (now : Nat) (userId discussionId : String)
    (store : Store) :
    PostClass.add render newId now emptyStr userId discussionId store =
      .error .badData := by
  simp [PostClass.add, emptyStr]

/-- Claim C3: `add` with non-empty `content` performs no permission check:
its very type consumes no `Env` (no Discussion or Team data), it cannot
fail with any error — in particular neither `permissionDenied` nor any
NotFound error, whatever the caller's memberships are and whether the
discussion exists — and it appends exactly the new post to the store. -/
theorem add_no_permission_check (render : String → String) (newId : String)
    (now : Nat) (content userId discussionId : String) (store : Store)
    (hc : content ≠ "") :
    (∀ e : PostError,
      PostClass.add render newId now content userId discussionId store ≠
        .error e) ∧
    ∃ p : Post,
      PostClass.add render newId now content userId discussionId store =
        .ok (p, store ++ [p]) ∧
      p.id = newId ∧ p.createdUserId = userId ∧
      p.discussionId = discussionId ∧ p.content = content ∧
      p.htmlContent = render content ∧ p.isEdited = false ∧
      p.createdAt = now ∧ p.lastUpdatedAt = none := by
  refine ⟨?_, ?_⟩
  · intro e
    simp [PostClass.add, hc]
  · exact ⟨{ id := newId, createdUserId := userId,
             discussionId := discussionId, content := content,
             htmlContent := render content, isEdited := false,
             createdAt := now, lastUpdatedAt := none },
      by simp [PostClass.add, hc], rfl, rfl, rfl, rfl, rfl, rfl, rfl, rfl⟩

/-- Witness for C3: `uOther`, who is a member of nothing, adds a post to
discussion `dMissing`, which does not exist; the call still succeeds and
creates the record. -/
theorem add_no_permission_check_witness :
    (∀ e : PostError,
      PostClass.add idRender pId2 3 cWorld uOther dMissing [postA] ≠
        .error e) ∧
    ∃ p : Post,
      PostClass.add idRender pId2 3 cWorld uOther dMissing [postA] =
        .ok (p, [postA] ++ [p]) ∧
      p.id = pId2 ∧ p.createdUserId = uOther ∧
      p.discussionId = dMissing ∧ p.content = cWorld ∧
      p.htmlContent = idRender cWorld ∧ p.isEdited = false ∧
      p.createdAt = 3 ∧ p.lastUpdatedAt = none :=
  add_no_permission_check idRender pId2 3 cWorld uOther dMissing [postA]
    (by decide)

/-- Claim C6: `edit` and `delete` with a well-formed call whose `id`
matches no stored post fail with the `NotFound` outcome (`postNotFound`,
the modelled null-dereference crash) for every environment — so before
any permission check, which would need the environment — and return no
mutated store. -/
theorem edit_delete_missing_post_notFound (render : String → String)
    (now : Nat) (env : Env) (content userId id : String) (store : Store)
    (hc : content ≠ "") (hi : id ≠ "")
    (hnone : store.find? (fun p => p.id == id) = none) :
    PostClass.edit render now env content userId id store =
      .error .postNotFound ∧
    PostClass.delete env userId id store = .error .postNotFound := by
  constructor
  · simp [PostClass.edit, hc, hi, hnone]
  · simp [PostClass.delete, hi, hnone]

/-- Witness for C6: editing or deleting the absent id `pId2` in a store
holding only `postA`, in the empty environment, fails with
`postNotFound`. -/
theorem edit_delete_missing_post_notFound_witness :
    PostClass.edit idRender 1 envEmpty cWorld uAuthor pId2 [postA] =
      .error .postNotFound ∧
    PostClass.delete envEmpty uAuthor pId2 [postA] =
      .error .postNotFound :=
  edit_delete_missing_post_notFound idRender 1 envEmpty cWorld uAuthor pId2
    [postA] (by decide) (by decide) (by decide)

/-- Claim C10: the ownership check of `checkPermission` precedes its
Discussion and Team lookups, so an `edit` or `delete` by a caller who is
not the post's author fails with `permissionDenied` for every
environment — in particular one in which the referenced discussion and
team do not exist at all. -/
theorem ownership_check_before_lookups (render : String → String)
    (now : Nat) (env : Env) (content userId id : String) (store : Store)
    (post : Post) (hc : content ≠ "") (hi : id ≠ "") (hu : userId ≠ "")
    (hfind : store.find? (fun p => p.id == id) = some post)
    (hd : post.discussionId ≠ "") (hown : post.createdUserId ≠ userId) :
    PostClass.edit render now env content userId id store =
      .error .permissionDenied ∧
    PostClass.delete env userId id store = .error .permissionDenied := by
  have hcp := checkPermission_owner_mismatch env userId post.discussionId post
    hu hd hown
  exact ⟨edit_checkPermission_error _ _ _ _ _ _ _ _ _ hc hi hfind hcp,
         delete_checkPermission_error _ _ _ _ _ _ hi hfind hcp⟩

/-- Witness for C10: `uOther` (not the author of `postA`) edits and
deletes `postA` in the empty environment, where neither the discussion
nor the team exists; both calls fail with `permissionDenied`. -/
theorem ownership_check_before_lookups_witness :
    PostClass.edit idRender 1 envEmpty cWorld uOther pId [postA] =
      .error .permissionDenied ∧
    PostClass.delete envEmpty uOther pId [postA] =
      .error .permissionDenied :=
  ownership_check_before_lookups idRender 1 envEmpty cWorld uOther pId
    [postA] postA (by decide) (by decide) (by decide) (by decide)
    (by decide) (by decide)

/-- Counterexample for C1 as stated: `uAuthor` edits their own post, is a
member of the discussion, but is not in `team.memberIds`
(`envNoTeamMember`); the call fails with `teamNotFound` — the source
raises `'Team not found'` on that branch — which is not
`permissionDenied`. -/
theorem team_nonmember_failure_not_permissionDenied :
    PostClass.edit idRender 1 envNoTeamMember cWorld uAuthor pId [postA] =
      .error .teamNotFound ∧
    PostClass.delete envNoTeamMember uAuthor pId [postA] =
      .error .teamNotFound ∧
    PostError.teamNotFound ≠ PostError.permissionDenied := by
  refine ⟨by decide, by decide, by decide⟩

/-- Claim C1 (amended): in a well-formed `edit` or `delete` call on an
existing post, (a) a caller who is not the post's author fails with
`permissionDenied`; (b) the author failing the discussion-membership test
fails with `permissionDenied`; but (c) the author who is a member of the
discussion and absent from `team.memberIds` fails with `teamNotFound`
(the `'Team not found'` message the source raises on that branch), not
`permissionDenied`. -/
theorem edit_delete_permission_failures (render : String → String)
    (now : Nat) (env : Env) (content userId id : String) (store : Store)
    (post : Post) (hc : content ≠ "") (hi : id ≠ "") (hu : userId ≠ "")
    (hfind : store.find? (fun p => p.id == id) = some post)
    (hd : post.discussionId ≠ "") :
    (post.createdUserId ≠ userId →
      PostClass.edit render now env content userId id store =
        .error .permissionDenied ∧
      PostClass.delete env userId id store = .error .permissionDenied) ∧
    (∀ discussion : Discussion, post.createdUserId = userId →
      env.discussions.find? (fun d => d.id == post.discussionId) =
        some discussion →
      userId ∉ discussion.memberIds →
      PostClass.edit render now env content userId id store =
        .error .permissionDenied ∧
      PostClass.delete env userId id store = .error .permissionDenied) ∧
    (∀ (discussion : Discussion) (team : Team),
      post.createdUserId = userId →
      env.discussions.find? (fun d => d.id == post.discussionId) =
        some discussion →
      userId ∈ discussion.memberIds →
      env.teams.find? (fun t => t.id == discussion.teamId) = some team →
      userId ∉ team.memberIds →
      PostClass.edit render now env content userId id store =
        .error .teamNotFound ∧
      PostClass.delete env userId id store = .error .teamNotFound) := by
  refine ⟨fun hown => ?_, fun discussion heq hfd hmem => ?_,
          fun discussion team heq hfd hmem hft htm => ?_⟩
  · have hcp := checkPermission_owner_mismatch env userId post.discussionId
      post hu hd hown
    exact ⟨edit_checkPermission_error _ _ _ _ _ _ _ _ _ hc hi hfind hcp,
           delete_checkPermission_error _ _ _ _ _ _ hi hfind hcp⟩
  · have hown : ownershipViolated userId (some post) = false := by
      simp [ownershipViolated, heq]
    have hcp := checkPermission_not_discussion_member env userId
      post.discussionId (some post) hu hd hown discussion hfd hmem
    exact ⟨edit_checkPermission_error _ _ _ _ _ _ _ _ _ hc hi hfind hcp,
           delete_checkPermission_error _ _ _ _ _ _ hi hfind hcp⟩
  · have hown : ownershipViolated userId (some post) = false := by
      simp [ownershipViolated, heq]
    have hcp := checkPermission_not_team_member env userId
      post.discussionId (some post) hu hd hown discussion hfd hmem team
      hft htm
    exact ⟨edit_checkPermission_error _ _ _ _ _ _ _ _ _ hc hi hfind hcp,
           delete_checkPermission_error _ _ _ _ _ _ hi hfind hcp⟩

/-- Witness for C1 (amended), case (c): the author, a discussion member
missing from the team's member list, gets `teamNotFound` from both `edit`
and `delete`. -/
theorem edit_delete_permission_failures_witness :
    PostClass.edit idRender 2 envNoTeamMember cAgain uAuthor pId [postA] =
      .error .teamNotFound ∧
    PostClass.delete envNoTeamMember uAuthor pId [postA] =
      .error .teamNotFound :=
  (edit_delete_permission_failures idRender 2 envNoTeamMember cAgain uAuthor
      pId [postA] postA (by decide) (by decide) (by decide) (by decide)
      (by decide)).2.2 dDisc tNoMembers (by decide) (by decide) (by decide)
    (by decide) (by decide)

/-- Claim C8: every successful `edit` sets `isEdited = true` and
`lastUpdatedAt = some now` (whatever their previous values, so also on
repeated edits), rewrites only `content` and `htmlContent` besides them,
keeps `id`, `createdUserId`, `discussionId`, `createdAt` unchanged, and
leaves every other record of the store untouched: the store splits as
`l1 ++ post :: l2` before and `l1 ++ updated :: l2` after. -/
theorem edit_updates_only_edit_fields (render : String → String) (now : Nat)
    (env : Env) (content userId id : String) (store : Store)
    (updated : Post) (store' : Store)
    (h : PostClass.edit render now env content userId id store =
      .ok (updated, store')) :
    updated.isEdited = true ∧ updated.lastUpdatedAt = some now ∧
    updated.content = content ∧ updated.htmlContent = render content ∧
    ∃ l1 post l2,
      store = l1 ++ post :: l2 ∧ store' = l1 ++ updated :: l2 ∧
      updated.id = post.id ∧ updated.createdUserId = post.createdUserId ∧
      updated.discussionId = post.discussionId ∧
      updated.createdAt = post.createdAt := by
  obtain ⟨l1, post, l2, rfl, hall, hpa, hupd, rfl⟩ :=
    edit_ok_split _ _ _ _ _ _ _ _ _ h
  subst hupd
  exact ⟨rfl, rfl, rfl, rfl, l1, post, l2, rfl, rfl, rfl, rfl, rfl, rfl⟩

/-- Witness for C8: a second edit of the already-edited `postAEdited`
still sets `isEdited` and refreshes `lastUpdatedAt`, and only the edited
record changes. -/
theorem edit_updates_only_edit_fields_witness :
    postAEditedTwice.isEdited = true ∧
    postAEditedTwice.lastUpdatedAt = some 2 ∧
    postAEditedTwice.content = cAgain ∧
    postAEditedTwice.htmlContent = idRender cAgain ∧
    ∃ l1 post l2,
      ([postB, postAEdited] : Store) = l1 ++ post :: l2 ∧
      ([postB, postAEditedTwice] : Store) = l1 ++ postAEditedTwice :: l2 ∧
      postAEditedTwice.id = post.id ∧
      postAEditedTwice.createdUserId = post.createdUserId ∧
      postAEditedTwice.discussionId = post.discussionId ∧
      postAEditedTwice.createdAt = post.createdAt :=
  edit_updates_only_edit_fields idRender 2 envFull cAgain uAuthor pId
    [postB, postAEdited] postAEditedTwice [postB, postAEditedTwice]
    (by decide)

/-- Claim C2: `htmlContent` is derived, never caller-supplied — `add` and
`edit` accept no html input and store `render content` — so the invariant
"every stored post has `htmlContent = render content`" is preserved by
every successful `add` and every successful `edit`. -/
theorem htmlContent_derived_from_content (render : String → String)
    (newId : String) (nowA nowE : Nat) (env : Env)
    (contentA userA discA contentE userE idE : String) (store : Store)
    (q1 q2 : Post) (s1 s2 : Store)
    (hinv : ∀ p ∈ store, p.htmlContent = render p.content) :
    (PostClass.add render newId nowA contentA userA discA store =
        .ok (q1, s1) →
      ∀ p ∈ s1, p.htmlContent = render p.content) ∧
    (PostClass.edit render nowE env contentE userE idE store =
        .ok (q2, s2) →
      ∀ p ∈ s2, p.htmlContent = render p.content) := by
  constructor
  · intro h p hp
    rw [PostClass.add] at h
    split at h
    · exact absurd h (by simp)
    · simp only [Except.ok.injEq, Prod.mk.injEq] at h
      obtain ⟨h1, h2⟩ := h
      rw [← h2] at hp
      rcases List.mem_append.mp hp with hp | hp
      · exact hinv p hp
      · obtain rfl := List.mem_singleton.mp hp
        rfl
  · intro h p hp
    obtain ⟨l1, post, l2, heq, hall, hpa, hupd, rfl⟩ :=
      edit_ok_split _ _ _ _ _ _ _ _ _ h
    rcases List.mem_append.mp hp with hp | hp
    · exact hinv p (heq ▸ List.mem_append_left _ hp)
    · rcases List.mem_cons.mp hp with rfl | hp
      · subst hupd
        rfl
      · exact hinv p (heq ▸ List.mem_append_right _ (List.mem_cons_of_mem _ hp))

/-- Witness for C2: starting from a store satisfying the invariant under
`idRender`, both a concrete successful `add` and a concrete successful
`edit` preserve it. -/
theorem htmlContent_derived_from_content_witness :
    (PostClass.add idRender pId2 3 cWorld uOther dMissing [postA] =
        .ok (postAdded, [postA, postAdded]) →
      ∀ p ∈ ([postA, postAdded] : Store),
        p.htmlContent = idRender p.content) ∧
    (PostClass.edit idRender 1 envFull cWorld uAuthor pId [postA] =
        .ok (postAEdited, [postAEdited]) →
      ∀ p ∈ ([postAEdited] : Store), p.htmlContent = idRender p.content) :=
  htmlContent_derived_from_content idRender pId2 3 1 envFull cWorld uOther
    dMissing cWorld uAuthor pId [postA] postAdded postAEdited
    [postA, postAdded] [postAEdited] (by decide)

/-- Claim C7: a successful `getList` returns exactly the stored posts
whose `discussionId` matches — a permutation of the filtered store, so no
post of another discussion and none missing or duplicated — in ascending
`createdAt` order. -/
theorem getList_exactly_discussion_posts_sorted (env : Env)
    (userId discussionId : String) (store : Store) (l : List Post)
    (h : PostClass.getList env userId discussionId store = .ok l) :
    (∀ p ∈ l, p.discussionId = discussionId) ∧
    l.Perm (store.filter fun p => p.discussionId == discussionId) ∧
    l.Pairwise byCreatedAt := by
  rw [PostClass.getList] at h
  split at h
  · exact absurd h (by simp)
  · obtain rfl : l = sortByCreatedAt
        (store.filter fun p => p.discussionId == discussionId) := by
      injection h with h
      exact h.symm
    refine ⟨?_, ?_, ?_⟩
    · intro p hp
      have hp' : p ∈ store.filter fun p => p.discussionId == discussionId :=
        (List.perm_insertionSort byCreatedAt _).subset hp
      exact eq_of_beq (List.mem_filter.mp hp').2
    · exact List.perm_insertionSort byCreatedAt _
    · exact List.sorted_insertionSort byCreatedAt _

/-- Witness for C7: listing discussion `dId` over a store holding two of
its posts out of order plus a post of another discussion returns exactly
the two, in ascending `createdAt` order. -/
theorem getList_exactly_discussion_posts_sorted_witness :
    (∀ p ∈ ([postA, postB] : List Post), p.discussionId = dId) ∧
    List.Perm [postA, postB]
      (List.filter (fun p => p.discussionId == dId) [postB, postC, postA]) ∧
    List.Pairwise byCreatedAt [postA, postB] :=
  getList_exactly_discussion_posts_sorted envFull uAuthor dId
    [postB, postC, postA] [postA, postB] (by decide)

/-- Counterexample for C4 as stated: for the mention link text
`<code>@#alice</code>` the renderer yields `<code>@alice</code> ` — the
marker's `#` is dropped and no icon is appended, but the code-span
wrapper is NOT stripped, so the output is not the plain `@alice `. -/
theorem mention_keeps_code_wrapper :
    rendererLink hrefX none mentionText = mentionOut ∧
    rendererLink hrefX none mentionText ≠ plainMention := by
  refine ⟨by decide, by decide⟩

/-- Claim C4 (amended): for every link whose rendered text begins with the
inline-code mention marker `<code>@#`, the renderer replaces that first
marker occurrence by `<code>@` and appends a single space — no icon and
no anchor markup is added, but the code-span wrapper is retained. -/
theorem mention_marker_rewrite (href : String) (title : Option String)
    (rest : String) :
    rendererLink href title (mentionMarker ++ rest) =
      mentionReplacement ++ rest ++ oneSpace := by
  have hpre : strStartsWith (mentionMarker ++ rest) mentionMarker = true := by
    rw [strStartsWith, String.data_append]
    exact isPrefixOfL_append_self _ _
  rw [rendererLink, if_pos hpre,
    replaceFirst_append_self mentionMarker mentionReplacement rest (by decide)]

/-- Claim C9: a link whose text does not begin with the mention marker is
rendered as the anchor template around the given `href` and text — the
template opening contains `target="_blank"`, its attribute tail contains
`rel="noopener noreferrer"`, and the markup appended after the link text
contains the `material-icons` external-link icon. -/
theorem external_link_anchor (href : String) (title : Option String)
    (text : String) (h : strStartsWith text mentionMarker = false) :
    rendererLink href title text =
      anchorOpen ++ href ++ anchorRel ++ titleAttr title ++ anchorTextOpen ++
        text ++ anchorIconClose ∧
    containsSub anchorOpen targetBlankAttr = true ∧
    containsSub anchorRel relNoopener = true ∧
    containsSub anchorIconClose iconLaunch = true := by
  refine ⟨?_, by decide, by decide, by decide⟩
  rw [rendererLink, if_neg (by simp [h])]

/-- Witness for C9: rendering the link `[link](http://x.com)` (no title)
produces the full anchor. -/
theorem external_link_anchor_witness :
    rendererLink hrefX none linkText =
      anchorOpen ++ hrefX ++ anchorRel ++ titleAttr none ++ anchorTextOpen ++
        linkText ++ anchorIconClose ∧
    containsSub anchorOpen targetBlankAttr = true ∧
    containsSub anchorRel relNoopener = true ∧
    containsSub anchorIconClose iconLaunch = true :=
  external_link_anchor hrefX none linkText (by decide)

end SaasPost
